import Mathlib

/-!
# UdioPlayer.js — shallow embedding and verification

A shallow embedding of `src/udio-player.js` (the v1.1.0 "enhanced" library):
the JSON values the search client consumes, the search cache and its
`JSON.stringify` cache key, the `CorsProxyManager` with the
`_fetchWithFallback` retry chain, the playback controller's event-listener
registry and section-loop timer, and the `JsonpHandler` script/global
lifecycle.  Stateful methods become explicit state-passing functions;
platform primitives (`fetch`, `JSON.parse`, `setInterval`, the DOM) become
oracles or explicit state, as noted at each definition.
-/

/-! ## JSON values

`JSON.parse` results and API payloads.  JavaScript numbers are modelled as
`Nat`: every numeric value the library manipulates (durations, counters,
page numbers) is a non-negative integer. -/

inductive JVal where
  | null
  | bool (b : Bool)
  | num (n : Nat)
  | str (s : String)
  | arr (items : List JVal)
  | obj (fields : List (String × JVal))

/-- JavaScript truthiness of a JSON value (`NaN` has no counterpart here;
arrays and objects are always truthy, as in JS). -/
def truthy : JVal → Bool
  | JVal.null => false
  | JVal.bool b => b
  | JVal.num n => n != 0
  | JVal.str s => s != ""
  | JVal.arr _ => true
  | JVal.obj _ => true

/-- Property access `v[k]`: `none` models `undefined` (also for access on a
non-object, which in JS yields `undefined` for these value kinds). -/
def jget : JVal → String → Option JVal
  | JVal.obj fields, k => fields.lookup k
  | _, _ => none

/-- JavaScript `x || d` on a possibly-undefined value. -/
def jsOr (x : Option JVal) (d : JVal) : JVal :=
  match x with
  | some v => if truthy v then v else d
  | none => d

/-- JavaScript `x || d` for numeric options (`0` is falsy). -/
def jsOrNat (x : Option Nat) (d : Nat) : Nat :=
  match x with
  | some n => if n = 0 then d else n
  | none => d

/-! ## Tracks -/

/-- A track record as built by `search`'s mapping step or by
`_getDemoTracks`.  `none` models an absent/`undefined` field. -/
structure Track where
  id : Option JVal
  artist : Option JVal
  title : Option JVal
  url : Option JVal
  tags : JVal
  image : Option JVal
  duration : Option JVal
  lyrics : Option JVal
  publishedAt : Option JVal
  likes : Option JVal
  plays : Option JVal

/-- The per-song mapping in `search` (lines 495–507):
`likes: song.likes || 0` and `plays: song.plays || 0` always produce a
number, `tags: song.tags || []` always an array; all other fields copy the
raw property (possibly `undefined`). -/
def mapSong (song : JVal) : Track :=
  { id := jget song "id"
    artist := jget song "artist"
    title := jget song "title"
    url := jget song "song_path"
    tags := jsOr (jget song "tags") (JVal.arr [])
    image := jget song "image_path"
    duration := jget song "duration"
    lyrics := jget song "lyrics"
    publishedAt := jget song "published_at"
    likes := some (jsOr (jget song "likes") (JVal.num 0))
    plays := some (jsOr (jget song "plays") (JVal.num 0)) }

/-- `_getDemoTracks` (lines 525–546): the two fixed placeholder tracks.
The object literals carry no `lyrics`, `publishedAt`, `likes` or `plays`
properties. -/
def demoTracks : List Track :=
  [ { id := some (JVal.str "demo1")
      artist := some (JVal.str "Demo Artist")
      title := some (JVal.str "Fallback Track 1")
      url := some (JVal.str "https://dl.dropbox.com/s/jemg8iu17ibr3p0/bensound-summer.mp3")
      tags := JVal.arr [JVal.str "demo", JVal.str "fallback"]
      image := some (JVal.str "https://picsum.photos/id/1/300/300")
      duration := some (JVal.num 217)
      lyrics := none
      publishedAt := none
      likes := none
      plays := none },
    { id := some (JVal.str "demo2")
      artist := some (JVal.str "Demo Artist")
      title := some (JVal.str "Fallback Track 2")
      url := some (JVal.str "https://dl.dropbox.com/s/zydq2wbcyjeavxu/bensound-acousticbreeze.mp3")
      tags := JVal.arr [JVal.str "demo", JVal.str "fallback"]
      image := some (JVal.str "https://picsum.photos/id/2/300/300")
      duration := some (JVal.num 166)
      lyrics := none
      publishedAt := none
      likes := none
      plays := none } ]

/-! ## Search options and the cache key

`search` computes its cache key as `JSON.stringify` of a fresh object
(lines 433–441).  We model the normalized key *contents* as `NormQuery`
and the serialized key as a character-level model of `JSON.stringify`
(decimal numbers, quoted strings with `"` and `\` escaped, `undefined`
properties dropped).  Control-character escapes are elided; they do not
affect any claim. -/

structure SearchOptions where
  tags : Option (List String) := none
  searchTerm : Option String := none
  maxResults : Option Nat := none
  sort : Option String := none
  maxAgeInHours : Option Nat := none
  userId : Option String := none
  page : Option Nat := none
deriving DecidableEq

/-- The seven properties of the key object, after the `||` defaults of
lines 434–440 are applied.  `none` models a property whose value is
`undefined` (dropped by `JSON.stringify`). -/
structure NormQuery where
  term : String
  tags : List String
  sort : Option String
  maxAge : Option Nat
  userId : Option String
  page : Nat
  size : Nat
deriving DecidableEq

/-- Lines 433–441: `term: options.searchTerm || ''`,
`tags: options.tags || []`, `sort: options.sort`,
`maxAge: options.maxAgeInHours`, `userId: options.userId`,
`page: options.page || 0`, `size: options.maxResults || this.pageSize`. -/
def normalizeQ (pageSize : Nat) (o : SearchOptions) : NormQuery :=
  { term := o.searchTerm.getD ""
    tags := o.tags.getD []
    sort := o.sort
    maxAge := o.maxAgeInHours
    userId := o.userId
    page := jsOrNat o.page 0
    size := jsOrNat o.maxResults pageSize }

/-- The `{` character (written by code point to keep braces out of string
and character literals). -/
def lbraceC : Char := Char.ofNat 123

/-- The `}` character. -/
def rbraceC : Char := Char.ofNat 125

/-- `JSON.stringify`'s escape of one string character (`"` and `\`). -/
def escChar (c : Char) : List Char :=
  if c = '"' then ['\\', '"'] else if c = '\\' then ['\\', '\\'] else [c]

/-- Escape a whole character list. -/
def escStr : List Char → List Char
  | [] => []
  | c :: cs => escChar c ++ escStr cs

/-- A JSON string literal: quote, escaped body, quote. -/
def encStrC (s : String) : List Char := '"' :: (escStr s.data ++ ['"'])

/-- Decimal digit character. -/
def digitChar (d : Nat) : Char := Char.ofNat (48 + d)

/-- Most-significant-first decimal digits of `n`; `fuel` is a structural
termination device (any `fuel ≥ n` yields the digits). -/
def natDigitsAux : Nat → Nat → List Char
  | 0, _ => []
  | fuel + 1, n => if n = 0 then [] else natDigitsAux fuel (n / 10) ++ [digitChar (n % 10)]

/-- A JSON number literal for a natural number. -/
def encNat (n : Nat) : List Char := if n = 0 then ['0'] else natDigitsAux (n + 1) n

/-- Recognizer for decimal digit characters (used to delimit number
literals inside the serialized key). -/
def isDigitC (c : Char) : Bool := decide (48 ≤ c.toNat ∧ c.toNat ≤ 57)

/-- One step of reading a decimal numeral. -/
def dstep (a : Nat) (c : Char) : Nat := 10 * a + (c.toNat - 48)

/-- Read back a decimal numeral (left inverse of `encNat`). -/
def decNat (l : List Char) : Nat := l.foldl dstep 0

/-- The comma-separated items of a JSON array of strings. -/
def encItems : List String → List Char
  | [] => []
  | [s] => encStrC s
  | s :: s2 :: rest => encStrC s ++ ',' :: encItems (s2 :: rest)

/-- A JSON array of strings. -/
def encArr (l : List String) : List Char := '[' :: (encItems l ++ [']'])

/-- Literal `{"term":` opening the key object. -/
def litTerm : List Char := [lbraceC, '"', 't', 'e', 'r', 'm', '"', ':']

/-- Literal `,"tags":`. -/
def litTags : List Char := [',', '"', 't', 'a', 'g', 's', '"', ':']

/-- Literal `,"sort":`. -/
def litSort : List Char := [',', '"', 's', 'o', 'r', 't', '"', ':']

/-- Literal `,"maxAge":`. -/
def litMaxAge : List Char := [',', '"', 'm', 'a', 'x', 'A', 'g', 'e', '"', ':']

/-- Literal `,"userId":`. -/
def litUserId : List Char := [',', '"', 'u', 's', 'e', 'r', 'I', 'd', '"', ':']

/-- Literal `,"page":`. -/
def litPage : List Char := [',', '"', 'p', 'a', 'g', 'e', '"', ':']

/-- Literal `,"size":`. -/
def litSize : List Char := [',', '"', 's', 'i', 'z', 'e', '"', ':']

/-- A property present only when its value is defined (`JSON.stringify`
drops `undefined`-valued properties). -/
def optEnc {α : Type} (enc : α → List Char) (lit : List Char) : Option α → List Char
  | none => []
  | some a => lit ++ enc a

/-- The closing `,"page":<p>,"size":<z>}` segment of the key. -/
def pageTail (p z : Nat) : List Char :=
  litPage ++ encNat p ++ litSize ++ encNat z ++ [rbraceC]

/-- The optional `userId` property followed by the closing segment. -/
def userTail (u : Option String) (p z : Nat) : List Char :=
  optEnc encStrC litUserId u ++ pageTail p z

/-- The optional `maxAge` property followed by the rest. -/
def maxTail (m : Option Nat) (u : Option String) (p z : Nat) : List Char :=
  optEnc encNat litMaxAge m ++ userTail u p z

/-- The optional `sort` property followed by the rest. -/
def sortTail (so : Option String) (m : Option Nat) (u : Option String) (p z : Nat) : List Char :=
  optEnc encStrC litSort so ++ maxTail m u p z

/-- `JSON.stringify` of the normalized key object, property order as in the
object literal of lines 433–441. -/
def keyChars (q : NormQuery) : List Char :=
  litTerm ++ encStrC q.term ++ litTags ++ encArr q.tags
    ++ sortTail q.sort q.maxAge q.userId q.page q.size

/-- The cache key string for a search (lines 433–441). -/
def cacheKey (pageSize : Nat) (o : SearchOptions) : String :=
  String.mk (keyChars (normalizeQ pageSize o))

/-! ## The search operation

`search` (lines 431–519) makes at most one `_fetchWithFallback` call.  The
call's settled outcome is passed in as `transport` (`Except.error` =
the fallback chain rejected after exhaustion); a string payload carries its
`JSON.parse` outcome (`JSON.parse` is a platform primitive, modelled as an
oracle `Option JVal`).  `requests` counts `_fetchWithFallback`
invocations. -/

inductive FetchVal where
  | jsonV (v : JVal)
  | strV (parsed : Option JVal)

/-- The value `search` works with after the `typeof result === 'string'`
re-parse step: `none` is the `JSON.parse` throw of line 482. -/
def toJsonVal : FetchVal → Option JVal
  | FetchVal.jsonV v => some v
  | FetchVal.strV p => p

/-- The `data.data` array, when the payload parses and the field passes the
`!data.data || !Array.isArray(data.data)` check of line 489. -/
def parsedData (fv : FetchVal) : Option (List JVal) :=
  match toJsonVal fv with
  | none => none
  | some data =>
    match jget data "data" with
    | some (JVal.arr songs) => some songs
    | _ => none

/-- The search's transport either rejected (chain exhausted) or delivered a
payload that fails the parse/shape checks. -/
def failedTransport : Except Unit FetchVal → Prop
  | Except.error _ => True
  | Except.ok fv => parsedData fv = none

structure SearchOut where
  res : Except Unit (List Track)
  cache : List (String × List Track)
  requests : Nat

/-- `search` (lines 431–519).  The cache is the `searchCache` object as an
association list; on the store of line 510 the key is known absent, so a
cons is the exact object-assignment semantics.  Every failure inside the
`try` lands in the catch of line 513, which returns `_getDemoTracks()`. -/
def search (pageSize : Nat) (cache : List (String × List Track))
    (transport : Except Unit FetchVal) (o : SearchOptions) : SearchOut :=
  let key := cacheKey pageSize o
  match cache.lookup key with
  | some v => ⟨Except.ok v, cache, 0⟩
  | none =>
    match transport with
    | Except.error _ => ⟨Except.ok demoTracks, cache, 1⟩
    | Except.ok fv =>
      match toJsonVal fv with
      | none => ⟨Except.ok demoTracks, cache, 1⟩
      | some data =>
        match jget data "data" with
        | some (JVal.arr songs) =>
          let tracks := songs.map mapSong
          ⟨Except.ok tracks, (key, tracks) :: cache, 1⟩
        | _ => ⟨Except.ok demoTracks, cache, 1⟩

/-! ## The CORS proxy manager

`CorsProxyManager` (lines 60–129).  The `format` closures are pure URL
rewrites; only their shape matters here, so they are reified as
`UrlFormat`.  `encodeURIComponent` is a platform primitive no claim
inspects. -/

inductive UrlFormat where
  | encodePrefix (base : String)
  | rawPrefix (base : String)
  | identity

structure ProxyDesc where
  name : String
  url : String
  fmt : UrlFormat
  methods : List String
  status : String

/-- The four descriptors of lines 63–93, in list order. -/
def initProxies : List ProxyDesc :=
  [ ⟨"allorigins", "https://api.allorigins.win/raw?url=",
      UrlFormat.encodePrefix "https://api.allorigins.win/raw?url=", ["GET"], "untested"⟩,
    ⟨"corsproxy.io", "https://corsproxy.io/?",
      UrlFormat.encodePrefix "https://corsproxy.io/?", ["GET", "POST"], "untested"⟩,
    ⟨"thingproxy", "https://thingproxy.freeboard.io/fetch/",
      UrlFormat.rawPrefix "https://thingproxy.freeboard.io/fetch/", ["GET", "POST"], "untested"⟩,
    ⟨"jsonp", "jsonp://", UrlFormat.identity, ["GET"], "untested"⟩ ]

/-- Manager state: descriptor list, rotation index, and the
`lastTestedTime` map (index to `Date.now()` of the last recorded failure;
an association list whose most recent entry shadows older ones, as object
assignment does). -/
structure PMState where
  proxies : List ProxyDesc
  currentProxyIndex : Nat
  lastTestedTime : List (Nat × Nat)

def initPM : PMState := ⟨initProxies, 0, []⟩

/-- `this.retryDelay = 30 * 60 * 1000` (line 97). -/
def retryDelay : Nat := 30 * 60 * 1000

def dummyProxy : ProxyDesc := ⟨"", "", UrlFormat.identity, [], ""⟩

/-- `getCurrentProxy` (lines 126–128): the descriptor at the rotation
index, with no method, status or cooldown filtering. -/
def getCurrentProxy (pm : PMState) : ProxyDesc :=
  pm.proxies.getD pm.currentProxyIndex dummyProxy

/-- `getNextProxy` (lines 103–106): advance the index cyclically. -/
def getNextProxy (pm : PMState) : PMState :=
  { pm with currentProxyIndex := (pm.currentProxyIndex + 1) % pm.proxies.length }

/-- In-place status update of the descriptor at an index. -/
def setStatusAt : List ProxyDesc → Nat → String → List ProxyDesc
  | [], _, _ => []
  | p :: rest, 0, st => { p with status := st } :: rest
  | p :: rest, i + 1, st => p :: setStatusAt rest i st

/-- `markCurrentAsFailed` (lines 111–114): set status and record
`Date.now()`. -/
def markCurrentAsFailed (pm : PMState) (now : Nat) : PMState :=
  { pm with proxies := setStatusAt pm.proxies pm.currentProxyIndex "failed"
            lastTestedTime := (pm.currentProxyIndex, now) :: pm.lastTestedTime }

/-- `markCurrentAsWorking` (lines 119–121). -/
def markCurrentAsWorking (pm : PMState) : PMState :=
  { pm with proxies := setStatusAt pm.proxies pm.currentProxyIndex "working" }

/-! ## The fetch fallback chain

`_fetchWithFallback` (lines 308–412).  Network outcomes are supplied by an
oracle: `directOut` for the initial direct attempt (collapsing a thrown
fetch and a non-2xx response into `none`), `proxyOut k` for the proxy
attempt at recursion depth `k` (the Web-Worker relay and the plain proxied
fetch have the same success/failure/marking structure and are collapsed;
worker unavailability surfaces as a failed outcome), `bareOut` for the
final simplified direct request, and `now k` for `Date.now()` at the k-th
failure.  The JSONP descriptor with a non-GET method throws synchronously
before any network action (line 333), so its outcome is forced to
failure. -/

structure FetchOptions where
  method : Option String
  headers : List (String × String)
  body : Option String
  mode : Option String
  cache : Option String
  credentials : Option String

structure FetchEnv where
  directOut : Option FetchVal
  proxyOut : Nat → Option FetchVal
  bareOut : Option FetchVal
  now : Nat → Nat

inductive Attempt where
  | direct
  | proxyA (name : String)
  | bare (opts : FetchOptions)

structure FWOut where
  res : Except Unit FetchVal
  pm : PMState
  attempts : List Attempt

structure FWConfig where
  corsMode : String
  maxRetries : Nat

/-- The simplified last-resort options of lines 392–404: stripped headers
(only `Content-Type` when a body is present), `credentials: 'omit'`. -/
def simplifyOptions (o : FetchOptions) : FetchOptions :=
  { method := o.method
    headers := match o.body with
      | some _ => [("Content-Type", "application/json")]
      | none => []
    body := o.body
    mode := some "cors"
    cache := some "no-cache"
    credentials := some "omit" }

/-- One recursion level of `_fetchWithFallback`; `fuel` is a structural
termination device (the recursion depth is bounded by
`maxRetries - retryCount`, so `maxRetries + 1` fuel always suffices). -/
def fetchAux (cfg : FWConfig) (env : FetchEnv) (opts : FetchOptions) :
    Nat → PMState → Nat → FWOut
  | 0, pm, _ => ⟨Except.error (), pm, []⟩
  | fuel + 1, pm, retryCount =>
    let method := opts.method.getD "GET"
    let dAtts : List Attempt :=
      if (cfg.corsMode = "direct" ∨ cfg.corsMode = "auto") ∧ retryCount = 0 then
        [Attempt.direct]
      else []
    let directHit : Option FetchVal :=
      if (cfg.corsMode = "direct" ∨ cfg.corsMode = "auto") ∧ retryCount = 0 then
        env.directOut
      else none
    match directHit with
    | some v => ⟨Except.ok v, pm, dAtts⟩
    | none =>
      if cfg.corsMode = "proxy" ∨ cfg.corsMode = "auto" then
        let currentProxy := getCurrentProxy pm
        let outcome : Option FetchVal :=
          if currentProxy.name = "jsonp" then
            if method = "GET" then env.proxyOut retryCount else none
          else env.proxyOut retryCount
        match outcome with
        | some v =>
          let pm2 := if currentProxy.name = "jsonp" then pm else markCurrentAsWorking pm
          ⟨Except.ok v, pm2, dAtts ++ [Attempt.proxyA currentProxy.name]⟩
        | none =>
          let pm2 := markCurrentAsFailed pm (env.now retryCount)
          if retryCount < cfg.maxRetries then
            let r := fetchAux cfg env opts fuel (getNextProxy pm2) (retryCount + 1)
            ⟨r.res, r.pm, dAtts ++ Attempt.proxyA currentProxy.name :: r.attempts⟩
          else
            match env.bareOut with
            | some v =>
              ⟨Except.ok v, pm2,
                dAtts ++ [Attempt.proxyA currentProxy.name, Attempt.bare (simplifyOptions opts)]⟩
            | none =>
              ⟨Except.error (), pm2,
                dAtts ++ [Attempt.proxyA currentProxy.name, Attempt.bare (simplifyOptions opts)]⟩
      else
        match env.bareOut with
        | some v => ⟨Except.ok v, pm, dAtts ++ [Attempt.bare (simplifyOptions opts)]⟩
        | none => ⟨Except.error (), pm, dAtts ++ [Attempt.bare (simplifyOptions opts)]⟩

/-- `_fetchWithFallback` entered from `search`: fresh manager, retry count
zero. -/
def fetchWithFallback (cfg : FWConfig) (env : FetchEnv) (opts : FetchOptions) : FWOut :=
  fetchAux cfg env opts (cfg.maxRetries + 1) initPM 0

/-- The options `search` passes to `_fetchWithFallback` (lines 470–476). -/
def searchFetchOptions (body : String) : FetchOptions :=
  ⟨some "POST", [("Content-Type", "application/json")], some body, none, none, none⟩

/-- An all-failing network oracle. -/
def envAllFail : FetchEnv := ⟨none, fun _ => none, none, fun _ => 0⟩

/-! ## The playback controller

Player state (constructor lines 202–211) restricted to the fields the
playback claims touch.  The native audio element is `AudioState`;
`attached` is the list of `(event, callback)` registrations forwarded to
it, in registration order (callbacks are identified by `Nat` tokens).
The transient once-listeners `loadTrack` uses to await readiness
(lines 589–590) are internal promise hooks and are elided; the load is
modelled as succeeding.  Times are in whole seconds. -/

structure AudioState where
  src : String := ""
  volume : Nat := 1
  loop : Bool := false
  autoplay : Bool := false
  playbackRate : Nat := 1
  crossOrigin : String := ""
  currentTime : Nat := 0
  attached : List (String × Nat) := []

structure LoopOptions where
  startTime : Nat
  endTime : Nat
  repetitions : Option Nat
deriving DecidableEq

inductive TrackInput where
  | byUrl (u : String)
  | byTrack (t : Track)

structure AudioOptions where
  volume : Option Nat := none
  autoplay : Option Bool := none
  loop : Option Bool := none
  playbackRate : Option Nat := none

/-- Player instance state: `_audioElement`, `_currentTrack`, the loop
timer (`true` = a `setInterval` handle is live), `_loopOptions`,
`_loopCount`, and `_eventListeners` (event name to callbacks, key and
callback order both insertion-ordered, as JS object/array order). -/
structure PlayerState where
  audioElement : Option AudioState := none
  currentTrack : Option TrackInput := none
  loopTimer : Bool := false
  loopOptions : Option LoopOptions := none
  loopCount : Nat := 0
  eventListeners : List (String × List Nat) := []

def initPlayer : PlayerState := {}

/-- Registry update of `addEventListener` (lines 809–813): create the
event's list on first use (new key appended last), then push. -/
def regAdd : List (String × List Nat) → String → Nat → List (String × List Nat)
  | [], e, cb => [(e, [cb])]
  | (e0, cbs) :: rest, e, cb =>
    if e0 = e then (e0, cbs ++ [cb]) :: rest else (e0, cbs) :: regAdd rest e cb

/-- The registry flattened in `Object.entries` order: every `(event,
callback)` pair in key order, each event's callbacks in insertion order. -/
def flattenReg (regs : List (String × List Nat)) : List (String × Nat) :=
  (regs.map (fun p => p.2.map (fun cb => (p.1, cb)))).flatten

/-- `addEventListener` (lines 809–818): record in the registry and forward
to the live element when one exists. -/
def addEventListenerP (s : PlayerState) (e : String) (cb : Nat) : PlayerState :=
  let s1 := { s with eventListeners := regAdd s.eventListeners e cb }
  match s1.audioElement with
  | some a => { s1 with audioElement := some { a with attached := a.attached ++ [(e, cb)] } }
  | none => s1

/-- `_setupEventListeners` (lines 874–883): attach every registered
callback to the element. -/
def setupEventListenersP (s : PlayerState) : PlayerState :=
  match s.audioElement with
  | none => s
  | some a =>
    { s with audioElement := some { a with attached := a.attached ++ flattenReg s.eventListeners } }

/-- `_removeEventListeners` (lines 885–894): detach every registered
callback from the element. -/
def removeEventListenersP (s : PlayerState) : PlayerState :=
  match s.audioElement with
  | none => s
  | some a =>
    { s with
        audioElement :=
          some { a with attached := a.attached.filter (fun p => p ∉ flattenReg s.eventListeners) } }

/-- `_clearLoopTimer` (lines 896–901). -/
def clearLoopTimerP (s : PlayerState) : PlayerState := { s with loopTimer := false }

/-- `stop` (lines 680–691). -/
def stopP (s : PlayerState) : PlayerState :=
  let s1 := clearLoopTimerP s
  let s2 :=
    match s1.audioElement with
    | some a =>
      let s3 := removeEventListenersP { s1 with audioElement := some { a with src := "" } }
      { s3 with audioElement := none }
    | none => s1
  { s2 with currentTrack := none }

def trackUrlOf : TrackInput → String
  | TrackInput.byUrl u => u
  | TrackInput.byTrack t =>
    match t.url with
    | some (JVal.str s) => s
    | _ => ""

/-- `loadTrack` (lines 554–599), with the awaited readiness signal
modelled as arriving: stop, record the track, build a fresh element with
the option defaults of lines 571–578, re-attach the registered listeners,
set the source. -/
def loadTrackP (s : PlayerState) (input : TrackInput) (o : AudioOptions) : PlayerState :=
  let s1 := stopP s
  let s2 := { s1 with currentTrack := some input }
  let a : AudioState :=
    { volume := o.volume.getD 1
      loop := o.loop = some true
      autoplay := o.autoplay = some true
      playbackRate := match o.playbackRate with
        | some r => if r = 0 then 1 else r
        | none => 1
      crossOrigin := "anonymous"
      src := ""
      currentTime := 0
      attached := [] }
  let s3 := setupEventListenersP { s2 with audioElement := some a }
  match s3.audioElement with
  | some a2 => { s3 with audioElement := some { a2 with src := trackUrlOf input } }
  | none => s3

/-- `loopSection` (lines 770–794): clear any timer, disable native loop,
store the descriptor, reset the counter, arm the interval
(`_setupLoopHandler`), and jump to the start when outside the section. -/
def loopSectionP (s : PlayerState) (o : LoopOptions) : PlayerState :=
  match s.audioElement with
  | none => s
  | some a =>
    let s1 := clearLoopTimerP s
    let s2 := { s1 with audioElement := some { a with loop := false }
                        loopOptions := some o
                        loopCount := 0
                        loopTimer := true }
    match s2.audioElement with
    | some a2 =>
      if a2.currentTime < o.startTime ∨ a2.currentTime > o.endTime then
        { s2 with audioElement := some { a2 with currentTime := o.startTime } }
      else s2
    | none => s2

/-- One firing of the 50 ms interval callback of `_setupLoopHandler`
(lines 909–931).  The environment invokes it only while the timer is
live. -/
def loopTickP (s : PlayerState) : PlayerState :=
  match s.audioElement, s.loopOptions with
  | some a, some lo =>
    if a.currentTime ≥ lo.endTime then
      match lo.repetitions with
      | some reps =>
        let c := s.loopCount + 1
        if c ≥ reps then { s with loopTimer := false, loopOptions := none, loopCount := c }
        else { s with loopCount := c, audioElement := some { a with currentTime := lo.startTime } }
      | none => { s with audioElement := some { a with currentTime := lo.startTime } }
    else s
  | _, _ => s

/-- Playback advancing (or the user seeking) between interval firings: the
element's position observed at the next tick. -/
def setPosP (s : PlayerState) (t : Nat) : PlayerState :=
  { s with audioElement := s.audioElement.map (fun a => { a with currentTime := t }) }

/-! ## The JSONP handler

`JsonpHandler.request` (lines 145–174).  The ambient browser state is
`JsonpEnv`: the script tags in the document body (by identity token), the
installed global callback names, the handler's counter, and a fresh-token
source for script identities.  Creating a request installs the global and
appends the script; the settlement (the callback firing, or the script
erroring) removes both and resolves or rejects. -/

/-- The generated callback name
`jsonpCallback_<Date.now()>_<counter>` (line 148). -/
def genCbName (now counter : Nat) : String :=
  "jsonpCallback_" ++ toString now ++ "_" ++ toString counter

structure JsonpReq where
  cbName : String
  scriptId : Nat

structure JsonpEnv where
  scripts : List Nat
  globals : List String
  callbackCounter : Nat
  nextScriptId : Nat

/-- Lines 148–172: generate the name, install `window[callbackName]`,
append the script element to `document.body`. -/
def jsonpCreate (env : JsonpEnv) (now : Nat) : JsonpEnv × JsonpReq :=
  let name := genCbName now env.callbackCounter
  let sid := env.nextScriptId
  (⟨env.scripts ++ [sid], env.globals ++ [name],
      env.callbackCounter + 1, env.nextScriptId + 1⟩,
    ⟨name, sid⟩)

/-- Settlement: the success callback (lines 151–157) or the `onerror`
handler (lines 165–169).  Both remove the script from the body and delete
the global, then resolve with the data or reject. -/
def jsonpSettle (env : JsonpEnv) (req : JsonpReq) (outcome : Option JVal) :
    JsonpEnv × Except Unit JVal :=
  match outcome with
  | some d =>
    (⟨env.scripts.erase req.scriptId, env.globals.erase req.cbName,
        env.callbackCounter, env.nextScriptId⟩,
      Except.ok d)
  | none =>
    (⟨env.scripts.erase req.scriptId, env.globals.erase req.cbName,
        env.callbackCounter, env.nextScriptId⟩,
      Except.error ())

/-! ## Concrete scenario states -/

/-- Registering a batch of `(event, callback)` pairs before any load. -/
def applyRegs (s : PlayerState) (regs : List (String × Nat)) : PlayerState :=
  regs.foldl (fun st p => addEventListenerP st p.1 p.2) s

/-- A player with a loaded handle at position 12, not yet looping. -/
def c4Start : PlayerState := { audioElement := some { currentTime := 12 } }

/-- `loopSection({startTime: 10, endTime: 30, repetitions: 3})`. -/
def c4Armed : PlayerState := loopSectionP c4Start ⟨10, 30, some 3⟩

/-- First interval firing that observes position 30. -/
def c4Tick1 : PlayerState := loopTickP (setPosP c4Armed 30)

/-- Second interval firing that observes position 30. -/
def c4Tick2 : PlayerState := loopTickP (setPosP c4Tick1 30)

/-- Third interval firing that observes position 30. -/
def c4Tick3 : PlayerState := loopTickP (setPosP c4Tick2 30)

/-! ## Serialized-key injectivity

`JSON.stringify` (as modelled above) is injective on normalized key
objects: the quote/escape discipline makes every string literal
self-delimiting, digit runs end at the first non-digit, and the property
names that can follow a dropped optional property all start with distinct
letters. -/

/-- Two runs of `P`-characters followed by non-`P` heads split a
concatenation uniquely. -/
theorem run_append_inj (P : Char → Bool) :
    ∀ (as bs r1 r2 : List Char), (∀ c ∈ as, P c = true) → (∀ c ∈ bs, P c = true) →
      (∀ c, r1.head? = some c → P c = false) → (∀ c, r2.head? = some c → P c = false) →
      as ++ r1 = bs ++ r2 → as = bs ∧ r1 = r2 := by
  intro as
  induction as with
  | nil =>
    intro bs r1 r2 _ hb hr1 _ h
    cases bs with
    | nil => exact ⟨rfl, h⟩
    | cons b bs' =>
      exfalso
      simp only [List.nil_append, List.cons_append] at h
      have hPb := hb b (by simp)
      have hnb := hr1 b (by rw [h]; rfl)
      rw [hPb] at hnb
      exact Bool.noConfusion hnb
  | cons a as' ih =>
    intro bs r1 r2 ha hb hr1 hr2 h
    cases bs with
    | nil =>
      exfalso
      simp only [List.nil_append, List.cons_append] at h
      have hPa := ha a (by simp)
      have hna := hr2 a (by rw [← h]; rfl)
      rw [hPa] at hna
      exact Bool.noConfusion hna
    | cons b bs' =>
      simp only [List.cons_append, List.cons.injEq] at h
      obtain ⟨hab, h2⟩ := h
      obtain ⟨h3, h4⟩ :=
        ih bs' r1 r2 (fun c hc => ha c (List.mem_cons_of_mem _ hc))
          (fun c hc => hb c (List.mem_cons_of_mem _ hc)) hr1 hr2 h2
      exact ⟨by rw [hab, h3], h4⟩

/-- Digits are digit characters. -/
theorem isDigitC_digitChar (d : Nat) (hd : d < 10) : isDigitC (digitChar d) = true := by
  interval_cases d <;> decide

/-- Every character `natDigitsAux` emits is a digit. -/
theorem natDigitsAux_digits :
    ∀ (fuel n : Nat), ∀ c ∈ natDigitsAux fuel n, isDigitC c = true := by
  intro fuel
  induction fuel with
  | zero => intro n c hc; simp [natDigitsAux] at hc
  | succ fuel ih =>
    intro n c hc
    rw [natDigitsAux] at hc
    by_cases hn : n = 0
    · simp [hn] at hc
    · rw [if_neg hn] at hc
      rcases List.mem_append.mp hc with h | h
      · exact ih _ c h
      · have : c = digitChar (n % 10) := by simpa using h
        rw [this]
        exact isDigitC_digitChar _ (Nat.mod_lt _ (by omega))

/-- Every character `encNat` emits is a digit. -/
theorem encNat_digits (n : Nat) : ∀ c ∈ encNat n, isDigitC c = true := by
  intro c hc
  rw [encNat] at hc
  by_cases hn : n = 0
  · rw [if_pos hn] at hc
    have : c = '0' := by simpa using hc
    rw [this]; decide
  · rw [if_neg hn] at hc
    exact natDigitsAux_digits _ _ c hc

/-- Reading back a digit. -/
theorem digitChar_toNat (d : Nat) (hd : d < 10) : (digitChar d).toNat - 48 = d := by
  interval_cases d <;> decide

/-- Folding `dstep` over the digits of `n` appends `n` to the accumulator
in base `10^length`. -/
theorem natDigitsAux_foldl :
    ∀ (fuel n a : Nat), n ≤ fuel →
      List.foldl dstep a (natDigitsAux fuel n)
        = a * 10 ^ (natDigitsAux fuel n).length + n := by
  intro fuel
  induction fuel with
  | zero =>
    intro n a hn
    have : n = 0 := by omega
    subst this
    simp [natDigitsAux]
  | succ fuel ih =>
    intro n a hn
    by_cases hz : n = 0
    · subst hz; simp [natDigitsAux]
    · rw [natDigitsAux, if_neg hz]
      have hlt : n / 10 < n := Nat.div_lt_self (Nat.pos_of_ne_zero hz) (by omega)
      have hle : n / 10 ≤ fuel := by omega
      rw [List.foldl_append, ih (n / 10) a hle]
      have hdc : dstep (a * 10 ^ (natDigitsAux fuel (n / 10)).length + n / 10)
            (digitChar (n % 10))
          = 10 * (a * 10 ^ (natDigitsAux fuel (n / 10)).length + n / 10) + n % 10 := by
        rw [dstep, digitChar_toNat _ (Nat.mod_lt _ (by omega))]
      rw [List.foldl_cons, List.foldl_nil, hdc, List.length_append, List.length_singleton]
      have hmod : 10 * (n / 10) + n % 10 = n := by omega
      generalize (natDigitsAux fuel (n / 10)).length = L
      calc 10 * (a * 10 ^ L + n / 10) + n % 10
          = a * 10 ^ (L + 1) + (10 * (n / 10) + n % 10) := by ring
        _ = a * 10 ^ (L + 1) + n := by rw [hmod]

/-- `decNat` reads back `encNat`. -/
theorem decNat_encNat (n : Nat) : decNat (encNat n) = n := by
  rw [encNat]
  by_cases hz : n = 0
  · rw [if_pos hz, hz]; decide
  · rw [if_neg hz, decNat, natDigitsAux_foldl (n + 1) n 0 (by omega)]
    simp

/-- `encNat` is injective. -/
theorem encNat_inj {n m : Nat} (h : encNat n = encNat m) : n = m := by
  rw [← decNat_encNat n, ← decNat_encNat m, h]

/-- A number literal followed by a non-digit delimiter is
self-delimiting. -/
theorem encNat_append_inj {n m : Nat} {r1 r2 : List Char}
    (hr1 : ∀ c, r1.head? = some c → isDigitC c = false)
    (hr2 : ∀ c, r2.head? = some c → isDigitC c = false)
    (h : encNat n ++ r1 = encNat m ++ r2) : n = m ∧ r1 = r2 := by
  obtain ⟨h1, h2⟩ :=
    run_append_inj isDigitC (encNat n) (encNat m) r1 r2
      (encNat_digits n) (encNat_digits m) hr1 hr2 h
  exact ⟨encNat_inj h1, h2⟩

/-- A quote-terminated escaped string body is self-delimiting: the first
unescaped quote ends it. -/
theorem escStr_quote_inj :
    ∀ (s1 s2 r1 r2 : List Char),
      escStr s1 ++ '"' :: r1 = escStr s2 ++ '"' :: r2 → s1 = s2 ∧ r1 = r2 := by
  intro s1
  induction s1 with
  | nil =>
    intro s2 r1 r2 h
    cases s2 with
    | nil =>
      simp only [escStr, List.nil_append, List.cons.injEq, true_and] at h
      exact ⟨rfl, h⟩
    | cons b s2' =>
      exfalso
      simp only [escStr, List.nil_append, List.append_assoc] at h
      by_cases hb1 : b = '"'
      · have he : escChar b = ['\\', '"'] := by rw [escChar, if_pos hb1]
        rw [he] at h
        simp only [List.cons_append, List.nil_append] at h
        injection h with h1 _
        exact absurd h1 (by decide)
      · by_cases hb2 : b = '\\'
        · have he : escChar b = ['\\', '\\'] := by rw [escChar, if_neg hb1, if_pos hb2]
          rw [he] at h
          simp only [List.cons_append, List.nil_append] at h
          injection h with h1 _
          exact absurd h1 (by decide)
        · have he : escChar b = [b] := by rw [escChar, if_neg hb1, if_neg hb2]
          rw [he] at h
          simp only [List.cons_append, List.nil_append] at h
          injection h with h1 _
          exact hb1 h1.symm
  | cons a s1' ih =>
    intro s2 r1 r2 h
    cases s2 with
    | nil =>
      exfalso
      simp only [escStr, List.nil_append, List.append_assoc] at h
      by_cases ha1 : a = '"'
      · have he : escChar a = ['\\', '"'] := by rw [escChar, if_pos ha1]
        rw [he] at h
        simp only [List.cons_append, List.nil_append] at h
        injection h with h1 _
        exact absurd h1 (by decide)
      · by_cases ha2 : a = '\\'
        · have he : escChar a = ['\\', '\\'] := by rw [escChar, if_neg ha1, if_pos ha2]
          rw [he] at h
          simp only [List.cons_append, List.nil_append] at h
          injection h with h1 _
          exact absurd h1 (by decide)
        · have he : escChar a = [a] := by rw [escChar, if_neg ha1, if_neg ha2]
          rw [he] at h
          simp only [List.cons_append, List.nil_append] at h
          injection h with h1 _
          exact ha1 h1
    | cons b s2' =>
      simp only [escStr, List.append_assoc] at h
      by_cases ha1 : a = '"'
      · have hea : escChar a = ['\\', '"'] := by rw [escChar, if_pos ha1]
        by_cases hb1 : b = '"'
        · have heb : escChar b = ['\\', '"'] := by rw [escChar, if_pos hb1]
          rw [hea, heb] at h
          simp only [List.cons_append, List.nil_append, List.cons.injEq, true_and] at h
          obtain ⟨hs, hr⟩ := ih s2' r1 r2 h
          exact ⟨by rw [ha1, hb1, hs], hr⟩
        · by_cases hb2 : b = '\\'
          · have heb : escChar b = ['\\', '\\'] := by rw [escChar, if_neg hb1, if_pos hb2]
            rw [hea, heb] at h
            simp only [List.cons_append, List.nil_append] at h
            injection h with _ h2
            injection h2 with h3 _
            exact absurd h3 (by decide)
          · have heb : escChar b = [b] := by rw [escChar, if_neg hb1, if_neg hb2]
            rw [hea, heb] at h
            simp only [List.cons_append, List.nil_append] at h
            injection h with h1 _
            exact (hb2 h1.symm).elim
      · by_cases ha2 : a = '\\'
        · have hea : escChar a = ['\\', '\\'] := by rw [escChar, if_neg ha1, if_pos ha2]
          by_cases hb1 : b = '"'
          · have heb : escChar b = ['\\', '"'] := by rw [escChar, if_pos hb1]
            rw [hea, heb] at h
            simp only [List.cons_append, List.nil_append] at h
            injection h with _ h2
            injection h2 with h3 _
            exact absurd h3 (by decide)
          · by_cases hb2 : b = '\\'
            · have heb : escChar b = ['\\', '\\'] := by rw [escChar, if_neg hb1, if_pos hb2]
              rw [hea, heb] at h
              simp only [List.cons_append, List.nil_append, List.cons.injEq, true_and] at h
              obtain ⟨hs, hr⟩ := ih s2' r1 r2 h
              exact ⟨by rw [ha2, hb2, hs], hr⟩
            · have heb : escChar b = [b] := by rw [escChar, if_neg hb1, if_neg hb2]
              rw [hea, heb] at h
              simp only [List.cons_append, List.nil_append] at h
              injection h with h1 _
              exact (hb2 h1.symm).elim
        · have hea : escChar a = [a] := by rw [escChar, if_neg ha1, if_neg ha2]
          by_cases hb1 : b = '"'
          · have heb : escChar b = ['\\', '"'] := by rw [escChar, if_pos hb1]
            rw [hea, heb] at h
            simp only [List.cons_append, List.nil_append] at h
            injection h with h1 _
            exact (ha2 h1).elim
          · by_cases hb2 : b = '\\'
            · have heb : escChar b = ['\\', '\\'] := by rw [escChar, if_neg hb1, if_pos hb2]
              rw [hea, heb] at h
              simp only [List.cons_append, List.nil_append] at h
              injection h with h1 _
              exact (ha2 h1).elim
            · have heb : escChar b = [b] := by rw [escChar, if_neg hb1, if_neg hb2]
              rw [hea, heb] at h
              simp only [List.cons_append, List.nil_append, List.cons.injEq] at h
              obtain ⟨hab, h2⟩ := h
              obtain ⟨hs, hr⟩ := ih s2' r1 r2 h2
              exact ⟨by rw [hab, hs], hr⟩

/-- A JSON string literal is self-delimiting in any concatenation. -/
theorem encStrC_append_inj {s1 s2 : String} {r1 r2 : List Char}
    (h : encStrC s1 ++ r1 = encStrC s2 ++ r2) : s1 = s2 ∧ r1 = r2 := by
  simp only [encStrC, List.cons_append, List.append_assoc, List.singleton_append,
    List.cons.injEq, true_and] at h
  obtain ⟨hd, hr⟩ := escStr_quote_inj s1.data s2.data r1 r2 h
  refine ⟨?_, hr⟩
  cases s1 with
  | mk d1 =>
    cases s2 with
    | mk d2 => exact congrArg String.mk hd

/-- A cons whose head is a non-digit bounds a digit run. -/
theorem nonDigit_head_cons (r : List Char) (c0 : Char) (h0 : isDigitC c0 = false) :
    ∀ c, (c0 :: r).head? = some c → isDigitC c = false := by
  intro c hc
  injection hc with h
  rw [← h]
  exact h0

/-- The items of a JSON string array, terminated by `]`, are
self-delimiting. -/
theorem encItems_append_inj :
    ∀ (l1 l2 : List String) (r1 r2 : List Char),
      encItems l1 ++ ']' :: r1 = encItems l2 ++ ']' :: r2 → l1 = l2 ∧ r1 = r2 := by
  intro l1
  induction l1 with
  | nil =>
    intro l2 r1 r2 h
    cases l2 with
    | nil =>
      simp only [encItems, List.nil_append, List.cons.injEq, true_and] at h
      exact ⟨rfl, h⟩
    | cons s l2' =>
      exfalso
      cases l2' with
      | nil =>
        simp only [encItems, encStrC, List.nil_append, List.cons_append] at h
        injection h with h1 _
        exact absurd h1 (by decide)
      | cons s3 l2'' =>
        simp only [encItems, encStrC, List.nil_append, List.cons_append,
          List.append_assoc] at h
        injection h with h1 _
        exact absurd h1 (by decide)
  | cons s1 l1' ih =>
    intro l2 r1 r2 h
    cases l2 with
    | nil =>
      exfalso
      cases l1' with
      | nil =>
        simp only [encItems, encStrC, List.nil_append, List.cons_append] at h
        injection h with h1 _
        exact absurd h1 (by decide)
      | cons s3 l1'' =>
        simp only [encItems, encStrC, List.nil_append, List.cons_append,
          List.append_assoc] at h
        injection h with h1 _
        exact absurd h1 (by decide)
    | cons s2 l2' =>
      cases l1' with
      | nil =>
        cases l2' with
        | nil =>
          simp only [encItems] at h
          obtain ⟨hs, hr⟩ := encStrC_append_inj h
          injection hr with _ hr2
          exact ⟨by rw [hs], hr2⟩
        | cons s3 l2'' =>
          exfalso
          simp only [encItems, List.cons_append, List.append_assoc] at h
          obtain ⟨hs, hr⟩ := encStrC_append_inj h
          injection hr with h1 _
          exact absurd h1 (by decide)
      | cons s1b l1'' =>
        cases l2' with
        | nil =>
          exfalso
          simp only [encItems, List.cons_append, List.append_assoc] at h
          obtain ⟨hs, hr⟩ := encStrC_append_inj h
          injection hr with h1 _
          exact absurd h1 (by decide)
        | cons s2b l2'' =>
          simp only [encItems, List.cons_append, List.append_assoc] at h
          obtain ⟨hs, hr⟩ := encStrC_append_inj h
          injection hr with _ hr2
          obtain ⟨hl, hr3⟩ := ih (s2b :: l2'') r1 r2 hr2
          exact ⟨by rw [hs, hl], hr3⟩

/-- A JSON string array is self-delimiting in any concatenation. -/
theorem encArr_append_inj {l1 l2 : List String} {r1 r2 : List Char}
    (h : encArr l1 ++ r1 = encArr l2 ++ r2) : l1 = l2 ∧ r1 = r2 := by
  simp only [encArr, List.cons_append, List.append_assoc, List.singleton_append,
    List.cons.injEq, true_and] at h
  exact encItems_append_inj l1 l2 r1 r2 h

/-- `userTail` always begins with a comma. -/
theorem userTail_head (u : Option String) (p z : Nat) :
    (userTail u p z).head? = some ',' := by
  cases u <;> rfl

/-- `userTail` never begins with a digit. -/
theorem userTail_head_nonDigit (u : Option String) (p z : Nat) :
    ∀ c, (userTail u p z).head? = some c → isDigitC c = false := by
  intro c hc
  rw [userTail_head u p z] at hc
  injection hc with h
  rw [← h]
  decide

/-- The closing `page`/`size` segment determines its numbers. -/
theorem pageTail_inj {p1 z1 p2 z2 : Nat} (h : pageTail p1 z1 = pageTail p2 z2) :
    p1 = p2 ∧ z1 = z2 := by
  simp only [pageTail, litPage, litSize, List.cons_append, List.append_assoc,
    List.cons.injEq, true_and] at h
  obtain ⟨hp, h2⟩ :=
    encNat_append_inj (nonDigit_head_cons _ ',' (by decide))
      (nonDigit_head_cons _ ',' (by decide)) h
  simp only [List.cons.injEq, true_and] at h2
  obtain ⟨hz, _⟩ :=
    encNat_append_inj (nonDigit_head_cons _ rbraceC (by decide))
      (nonDigit_head_cons _ rbraceC (by decide)) h2
  exact ⟨hp, hz⟩

/-- The optional `userId` property and the closing segment determine their
fields. -/
theorem userTail_inj {u1 u2 : Option String} {p1 z1 p2 z2 : Nat}
    (h : userTail u1 p1 z1 = userTail u2 p2 z2) : u1 = u2 ∧ p1 = p2 ∧ z1 = z2 := by
  cases u1 with
  | none =>
    cases u2 with
    | none =>
      simp only [userTail, optEnc, List.nil_append] at h
      obtain ⟨hp, hz⟩ := pageTail_inj h
      exact ⟨rfl, hp, hz⟩
    | some s2 =>
      exfalso
      simp only [userTail, optEnc, pageTail, litPage, litUserId, List.nil_append,
        List.cons_append, List.append_assoc] at h
      injection h with _ h
      injection h with _ h
      injection h with h3 _
      exact absurd h3 (by decide)
  | some s1 =>
    cases u2 with
    | none =>
      exfalso
      simp only [userTail, optEnc, pageTail, litPage, litUserId, List.nil_append,
        List.cons_append, List.append_assoc] at h
      injection h with _ h
      injection h with _ h
      injection h with h3 _
      exact absurd h3 (by decide)
    | some s2 =>
      simp only [userTail, optEnc, litUserId, List.cons_append, List.append_assoc,
        List.cons.injEq, true_and] at h
      obtain ⟨hs, hr⟩ := encStrC_append_inj h
      obtain ⟨hp, hz⟩ := pageTail_inj hr
      exact ⟨by rw [hs], hp, hz⟩

/-- The optional `maxAge` property and the rest determine their fields. -/
theorem maxTail_inj {m1 m2 : Option Nat} {u1 u2 : Option String} {p1 z1 p2 z2 : Nat}
    (h : maxTail m1 u1 p1 z1 = maxTail m2 u2 p2 z2) :
    m1 = m2 ∧ u1 = u2 ∧ p1 = p2 ∧ z1 = z2 := by
  cases m1 with
  | none =>
    cases m2 with
    | none =>
      simp only [maxTail, optEnc, List.nil_append] at h
      obtain ⟨hu, hp, hz⟩ := userTail_inj h
      exact ⟨rfl, hu, hp, hz⟩
    | some n2 =>
      exfalso
      cases u1 with
      | none =>
        simp only [maxTail, optEnc, userTail, pageTail, litPage, litMaxAge,
          List.nil_append, List.cons_append, List.append_assoc] at h
        injection h with _ h
        injection h with _ h
        injection h with h3 _
        exact absurd h3 (by decide)
      | some s1 =>
        simp only [maxTail, optEnc, userTail, litUserId, litMaxAge,
          List.nil_append, List.cons_append, List.append_assoc] at h
        injection h with _ h
        injection h with _ h
        injection h with h3 _
        exact absurd h3 (by decide)
  | some n1 =>
    cases m2 with
    | none =>
      exfalso
      cases u2 with
      | none =>
        simp only [maxTail, optEnc, userTail, pageTail, litPage, litMaxAge,
          List.nil_append, List.cons_append, List.append_assoc] at h
        injection h with _ h
        injection h with _ h
        injection h with h3 _
        exact absurd h3 (by decide)
      | some s2 =>
        simp only [maxTail, optEnc, userTail, litUserId, litMaxAge,
          List.nil_append, List.cons_append, List.append_assoc] at h
        injection h with _ h
        injection h with _ h
        injection h with h3 _
        exact absurd h3 (by decide)
    | some n2 =>
      simp only [maxTail, optEnc, litMaxAge, List.cons_append, List.append_assoc,
        List.cons.injEq, true_and] at h
      obtain ⟨hn, hr⟩ :=
        encNat_append_inj (userTail_head_nonDigit u1 p1 z1)
          (userTail_head_nonDigit u2 p2 z2) h
      obtain ⟨hu, hp, hz⟩ := userTail_inj hr
      exact ⟨by rw [hn], hu, hp, hz⟩

/-- The optional `sort` property and the rest determine their fields. -/
theorem sortTail_inj {so1 so2 : Option String} {m1 m2 : Option Nat}
    {u1 u2 : Option String} {p1 z1 p2 z2 : Nat}
    (h : sortTail so1 m1 u1 p1 z1 = sortTail so2 m2 u2 p2 z2) :
    so1 = so2 ∧ m1 = m2 ∧ u1 = u2 ∧ p1 = p2 ∧ z1 = z2 := by
  cases so1 with
  | none =>
    cases so2 with
    | none =>
      simp only [sortTail, optEnc, List.nil_append] at h
      obtain ⟨hm, hu, hp, hz⟩ := maxTail_inj h
      exact ⟨rfl, hm, hu, hp, hz⟩
    | some t2 =>
      exfalso
      cases m1 with
      | some n1 =>
        simp only [sortTail, maxTail, optEnc, litMaxAge, litSort,
          List.nil_append, List.cons_append, List.append_assoc] at h
        injection h with _ h
        injection h with _ h
        injection h with h3 _
        exact absurd h3 (by decide)
      | none =>
        cases u1 with
        | some s1 =>
          simp only [sortTail, maxTail, optEnc, userTail, litUserId, litSort,
            List.nil_append, List.cons_append, List.append_assoc] at h
          injection h with _ h
          injection h with _ h
          injection h with h3 _
          exact absurd h3 (by decide)
        | none =>
          simp only [sortTail, maxTail, optEnc, userTail, pageTail, litPage, litSort,
            List.nil_append, List.cons_append, List.append_assoc] at h
          injection h with _ h
          injection h with _ h
          injection h with h3 _
          exact absurd h3 (by decide)
  | some t1 =>
    cases so2 with
    | none =>
      exfalso
      cases m2 with
      | some n2 =>
        simp only [sortTail, maxTail, optEnc, litMaxAge, litSort,
          List.nil_append, List.cons_append, List.append_assoc] at h
        injection h with _ h
        injection h with _ h
        injection h with h3 _
        exact absurd h3 (by decide)
      | none =>
        cases u2 with
        | some s2 =>
          simp only [sortTail, maxTail, optEnc, userTail, litUserId, litSort,
            List.nil_append, List.cons_append, List.append_assoc] at h
          injection h with _ h
          injection h with _ h
          injection h with h3 _
          exact absurd h3 (by decide)
        | none =>
          simp only [sortTail, maxTail, optEnc, userTail, pageTail, litPage, litSort,
            List.nil_append, List.cons_append, List.append_assoc] at h
          injection h with _ h
          injection h with _ h
          injection h with h3 _
          exact absurd h3 (by decide)
    | some t2 =>
      simp only [sortTail, optEnc, litSort, List.cons_append, List.append_assoc,
        List.cons.injEq, true_and] at h
      obtain ⟨ht, hr⟩ := encStrC_append_inj h
      obtain ⟨hm, hu, hp, hz⟩ := maxTail_inj hr
      exact ⟨by rw [ht], hm, hu, hp, hz⟩

/-- The serialized key determines the normalized query. -/
theorem keyChars_inj {q1 q2 : NormQuery} (h : keyChars q1 = keyChars q2) : q1 = q2 := by
  simp only [keyChars, litTerm, litTags, List.cons_append, List.append_assoc,
    List.cons.injEq, true_and] at h
  obtain ⟨hterm, h2⟩ := encStrC_append_inj h
  simp only [List.cons.injEq, true_and] at h2
  obtain ⟨htags, h3⟩ := encArr_append_inj h2
  obtain ⟨hsort, hmax, huser, hpage, hsize⟩ := sortTail_inj h3
  cases q1
  cases q2
  simp only [NormQuery.mk.injEq]
  exact ⟨hterm, htags, hsort, hmax, huser, hpage, hsize⟩

/-- Distinct normalized queries get distinct cache keys. -/
theorem cacheKey_inj {ps : Nat} {o1 o2 : SearchOptions}
    (h : cacheKey ps o1 = cacheKey ps o2) : normalizeQ ps o1 = normalizeQ ps o2 := by
  rw [cacheKey, cacheKey] at h
  injection h with hdata
  exact keyChars_inj hdata

/-! ## Search behaviour -/

/-- A cache hit returns the stored tracks without touching the network
(lines 444–446). -/
theorem search_hit (ps : Nat) (cache : List (String × List Track))
    (t : Except Unit FetchVal) (o : SearchOptions) (v : List Track)
    (hhit : cache.lookup (cacheKey ps o) = some v) :
    search ps cache t o = ⟨Except.ok v, cache, 0⟩ := by
  simp only [search, hhit]

/-- On a cache miss, exactly one transport request is issued, whatever its
outcome. -/
theorem search_miss_requests (ps : Nat) (cache : List (String × List Track))
    (t : Except Unit FetchVal) (o : SearchOptions)
    (hmiss : cache.lookup (cacheKey ps o) = none) :
    (search ps cache t o).requests = 1 := by
  cases t with
  | error e => simp [search, hmiss]
  | ok fv =>
    cases hfv : toJsonVal fv with
    | none => simp [search, hmiss, hfv]
    | some data =>
      cases hjd : jget data "data" with
      | none => simp [search, hmiss, hfv, hjd]
      | some v => cases v <;> simp [search, hmiss, hfv, hjd]

/-- Any failure inside the `try` — transport rejection, `JSON.parse`
throw, or the response-shape check — lands in the catch of line 513:
the demo tracks are returned, the cache is left untouched, and no second
request is made. -/
theorem search_fallback (ps : Nat) (cache : List (String × List Track))
    (t : Except Unit FetchVal) (o : SearchOptions)
    (hmiss : cache.lookup (cacheKey ps o) = none) (hfail : failedTransport t) :
    search ps cache t o = ⟨Except.ok demoTracks, cache, 1⟩ := by
  cases t with
  | error e => simp [search, hmiss]
  | ok fv =>
    have hp : parsedData fv = none := hfail
    cases hfv : toJsonVal fv with
    | none => simp [search, hmiss, hfv]
    | some data =>
      cases hjd : jget data "data" with
      | none => simp [search, hmiss, hfv, hjd]
      | some v =>
        cases v with
        | arr songs =>
          exfalso
          simp only [parsedData, hfv, hjd] at hp
          exact Option.noConfusion hp
        | null => simp [search, hmiss, hfv, hjd]
        | bool b => simp [search, hmiss, hfv, hjd]
        | num n => simp [search, hmiss, hfv, hjd]
        | str s => simp [search, hmiss, hfv, hjd]
        | obj fields => simp [search, hmiss, hfv, hjd]

/-- A parsed payload with an array-valued `data` field maps the songs,
stores them under the key, and returns them (lines 489–512). -/
theorem search_success (ps : Nat) (cache : List (String × List Track))
    (o : SearchOptions) (fv : FetchVal) (songs : List JVal)
    (hmiss : cache.lookup (cacheKey ps o) = none)
    (hp : parsedData fv = some songs) :
    search ps cache (Except.ok fv) o
      = ⟨Except.ok (songs.map mapSong), (cacheKey ps o, songs.map mapSong) :: cache, 1⟩ := by
  cases hfv : toJsonVal fv with
  | none =>
    exfalso
    simp only [parsedData, hfv] at hp
    exact Option.noConfusion hp
  | some data =>
    cases hjd : jget data "data" with
    | none =>
      exfalso
      simp only [parsedData, hfv, hjd] at hp
      exact Option.noConfusion hp
    | some v =>
      cases v with
      | arr songs2 =>
        simp only [parsedData, hfv, hjd, Option.some.injEq] at hp
        subst hp
        simp [search, hmiss, hfv, hjd]
      | null =>
        exfalso
        simp only [parsedData, hfv, hjd] at hp
        exact Option.noConfusion hp
      | bool b =>
        exfalso
        simp only [parsedData, hfv, hjd] at hp
        exact Option.noConfusion hp
      | num n =>
        exfalso
        simp only [parsedData, hfv, hjd] at hp
        exact Option.noConfusion hp
      | str s =>
        exfalso
        simp only [parsedData, hfv, hjd] at hp
        exact Option.noConfusion hp
      | obj fields =>
        exfalso
        simp only [parsedData, hfv, hjd] at hp
        exact Option.noConfusion hp

/-! ## Claims C2, C3, C6, C10 -/

/-- C2, counterexample: a search whose transport delivers an unparseable
string payload does not raise the parse failure to the caller — the catch
of line 513 swallows it and the caller receives the demo tracks. -/
theorem claimC2_counterexample :
    (search 20 [] (Except.ok (FetchVal.strV none)) {}).res = Except.ok demoTracks
    ∧ ¬ ∃ e, (search 20 [] (Except.ok (FetchVal.strV none)) {}).res = Except.error e := by
  refine ⟨rfl, ?_⟩
  rintro ⟨e, h⟩
  rw [show (search 20 [] (Except.ok (FetchVal.strV none)) {}).res = Except.ok demoTracks
    from rfl] at h
  exact Except.noConfusion h

/-- C2 (amended): a payload that fails `JSON.parse` or the array-valued
`data` check aborts the attempt immediately — the transport is invoked
exactly once, with no retry — but the failure is caught inside `search`
and the caller receives the fixed demo track list instead of a raised
error, with the cache untouched. -/
theorem claimC2_amended (ps : Nat) (cache : List (String × List Track))
    (o : SearchOptions) (fv : FetchVal)
    (hmiss : cache.lookup (cacheKey ps o) = none)
    (hparse : parsedData fv = none) :
    search ps cache (Except.ok fv) o = ⟨Except.ok demoTracks, cache, 1⟩ :=
  search_fallback ps cache (Except.ok fv) o hmiss hparse

/-- C2, witness: the amended claim at a concrete unparseable payload. -/
theorem claimC2_amended_witness :
    search 20 [] (Except.ok (FetchVal.strV none)) {}
      = ⟨Except.ok demoTracks, [], 1⟩ :=
  claimC2_amended 20 [] {} (FetchVal.strV none) rfl rfl

/-- C3, counterexample: the concrete default configuration substitutes the
demo tracks on exhaustion, and no configuration (page size, cache, query)
makes an exhausted search raise — the result is always `Except.ok`, so the
claimed raising configuration does not exist. -/
theorem claimC3_counterexample :
    ((search 20 [] (Except.error ()) {}).res = Except.ok demoTracks)
    ∧ ¬ ∃ (ps : Nat) (o : SearchOptions) (e : Unit),
        (search ps [] (Except.error ()) o).res = Except.error e := by
  refine ⟨rfl, ?_⟩
  rintro ⟨ps, o, e, h⟩
  rw [show (search ps [] (Except.error ()) o).res = Except.ok demoTracks from rfl] at h
  exact Except.noConfusion h

/-- C3 (amended): the placeholder substitution is unconditional — in every
configuration an exhausted search returns the fixed demo track list to the
caller rather than raising — and callers can nevertheless distinguish
placeholder results from any successfully mapped result, because every
mapped track carries a numeric `likes` field while the demo tracks carry
none. -/
theorem claimC3_amended :
    (∀ (ps : Nat) (cache : List (String × List Track)) (o : SearchOptions),
        cache.lookup (cacheKey ps o) = none →
          (search ps cache (Except.error ()) o).res = Except.ok demoTracks)
    ∧ (∀ songs : List JVal, songs.map mapSong ≠ demoTracks) := by
  constructor
  · intro ps cache o hmiss
    rw [search_fallback ps cache (Except.error ()) o hmiss trivial]
  · intro songs h
    cases songs with
    | nil => exact List.noConfusion h
    | cons s rest =>
      rw [demoTracks] at h
      injection h with hhead _
      have hlikes := congrArg Track.likes hhead
      exact Option.noConfusion hlikes

/-- C3, witness: the amended claim at a concrete empty cache and a
one-song payload. -/
theorem claimC3_amended_witness :
    (search 20 [] (Except.error ()) {}).res = Except.ok demoTracks
    ∧ [JVal.null].map mapSong ≠ demoTracks :=
  ⟨claimC3_amended.1 20 [] {} rfl, claimC3_amended.2 [JVal.null]⟩

/-- C6, counterexample: two searches that differ in a parameter — one
passes `maxResults: 20` explicitly, the other omits it with `pageSize`
20 — serialize to the same cache key. -/
theorem claimC6_counterexample :
    ({ maxResults := some 20 } : SearchOptions) ≠ ({} : SearchOptions)
    ∧ cacheKey 20 { maxResults := some 20 } = cacheKey 20 {} := by
  exact ⟨by decide, rfl⟩

/-- C6 (amended): a successful search stores its result under the
serialized key; a repeated query whose key is cached returns the stored
result set with no network request; and two queries whose *normalized*
forms (the `||` defaults of lines 434–440 applied) differ always serialize
to distinct cache keys — only a query differing from another solely by
spelling out a default value shares its key. -/
theorem claimC6_amended :
    (∀ (ps : Nat) (cache : List (String × List Track)) (o : SearchOptions)
        (fv : FetchVal) (songs : List JVal),
        cache.lookup (cacheKey ps o) = none → parsedData fv = some songs →
          search ps cache (Except.ok fv) o
            = ⟨Except.ok (songs.map mapSong),
                (cacheKey ps o, songs.map mapSong) :: cache, 1⟩)
    ∧ (∀ (ps : Nat) (cache : List (String × List Track)) (o : SearchOptions)
        (t : Except Unit FetchVal) (v : List Track),
        cache.lookup (cacheKey ps o) = some v →
          search ps cache t o = ⟨Except.ok v, cache, 0⟩)
    ∧ (∀ (ps : Nat) (o1 o2 : SearchOptions),
        normalizeQ ps o1 ≠ normalizeQ ps o2 → cacheKey ps o1 ≠ cacheKey ps o2) := by
  refine ⟨?_, ?_, ?_⟩
  · intro ps cache o fv songs hmiss hp
    exact search_success ps cache o fv songs hmiss hp
  · intro ps cache o t v hhit
    exact search_hit ps cache t o v hhit
  · intro ps o1 o2 hne h
    exact hne (cacheKey_inj h)

/-- C6, witness: store an empty result set, hit the cache on repeat, and
separate two normalization-distinct queries. -/
theorem claimC6_amended_witness :
    (search 20 [] (Except.ok (FetchVal.jsonV (JVal.obj [("data", JVal.arr [])]))) {}
      = ⟨Except.ok [], [(cacheKey 20 {}, [])], 1⟩)
    ∧ (search 20 [(cacheKey 20 {}, demoTracks)] (Except.error ()) {}
        = ⟨Except.ok demoTracks, [(cacheKey 20 {}, demoTracks)], 0⟩)
    ∧ cacheKey 20 { searchTerm := some "a" } ≠ cacheKey 20 {} :=
  ⟨claimC6_amended.1 20 [] {} (FetchVal.jsonV (JVal.obj [("data", JVal.arr [])])) [] rfl rfl,
    claimC6_amended.2.1 20 [(cacheKey 20 {}, demoTracks)] {} (Except.error ()) demoTracks
      (by simp [List.lookup]),
    claimC6_amended.2.2 20 { searchTerm := some "a" } {} (by decide)⟩

/-- C10 (confirmed): a failed search — transport exhaustion or a parse
failure — leaves the cache unchanged and returns the demo tracks without
storing them, so a repeated identical query afterwards misses the cache
and issues a new network request. -/
theorem claimC10 (ps : Nat) (cache : List (String × List Track))
    (o : SearchOptions) (t t2 : Except Unit FetchVal)
    (hmiss : cache.lookup (cacheKey ps o) = none)
    (hfail : failedTransport t) :
    ((search ps cache t o).cache = cache)
    ∧ ((search ps cache t o).res = Except.ok demoTracks)
    ∧ ((search ps (search ps cache t o).cache t2 o).requests = 1) := by
  have hs := search_fallback ps cache t o hmiss hfail
  refine ⟨by rw [hs], by rw [hs], ?_⟩
  rw [hs]
  exact search_miss_requests ps cache t2 o hmiss

/-- C10, witness: the failure path at a concrete unparseable payload,
followed by a repeat against an erroring transport. -/
theorem claimC10_witness :
    ((search 20 [] (Except.ok (FetchVal.strV none)) {}).cache = [])
    ∧ ((search 20 [] (Except.ok (FetchVal.strV none)) {}).res = Except.ok demoTracks)
    ∧ ((search 20 (search 20 [] (Except.ok (FetchVal.strV none)) {}).cache
          (Except.error ()) {}).requests = 1) :=
  claimC10 20 [] {} (Except.ok (FetchVal.strV none)) (Except.error ()) rfl rfl

/-! ## Claims C4, C5 — section looping -/

/-- C5 (confirmed): while a section loop `{startTime: 10, endTime: 30}`
with no repetition count is armed, every interval firing that observes
position ≥ 30 rewinds to 10 and leaves the timer and descriptor live, and
a firing that observes position < 30 changes nothing — the loop never
terminates on its own. -/
theorem claimC5 (s : PlayerState) (a : AudioState)
    (ha : s.audioElement = some a) (hlo : s.loopOptions = some ⟨10, 30, none⟩)
    (htimer : s.loopTimer = true) :
    (loopTickP s).loopTimer = true
    ∧ (loopTickP s).loopOptions = some ⟨10, 30, none⟩
    ∧ (30 ≤ a.currentTime → (loopTickP s).audioElement = some { a with currentTime := 10 })
    ∧ (a.currentTime < 30 → loopTickP s = s) := by
  by_cases hge : 30 ≤ a.currentTime
  · refine ⟨?_, ?_, fun _ => ?_, fun hlt => absurd hge (by omega)⟩ <;>
      simp [loopTickP, ha, hlo, htimer, hge]
  · have hsame : loopTickP s = s := by simp [loopTickP, ha, hlo, hge]
    exact ⟨by rw [hsame]; exact htimer, by rw [hsame]; exact hlo,
      fun hc => absurd hc hge, fun _ => hsame⟩

/-- C5, witness: one observing firing at position 31. -/
theorem claimC5_witness :
    (loopTickP
        { audioElement := some { currentTime := 31 },
          loopTimer := true,
          loopOptions := some ⟨10, 30, none⟩ }).loopTimer = true
    ∧ (loopTickP
        { audioElement := some { currentTime := 31 },
          loopTimer := true,
          loopOptions := some ⟨10, 30, none⟩ }).loopOptions = some ⟨10, 30, none⟩ := by
  have h := claimC5
    { audioElement := some { currentTime := 31 },
      loopTimer := true,
      loopOptions := some ⟨10, 30, none⟩ }
    { currentTime := 31 } rfl rfl rfl
  exact ⟨h.1, h.2.1⟩

/-- C4, counterexample: with `repetitions: 3` the third firing that
observes position ≥ 30 increments the counter to 3 and stops looping
*without* rewinding — position stays at 30 instead of the claimed 10, and
looping has already ended at the third crossing, not the fourth. -/
theorem claimC4_counterexample :
    ((setPosP c4Tick2 30).audioElement.map (fun a => a.currentTime) = some 30)
    ∧ (c4Tick2.loopCount = 2 ∧ c4Tick2.loopTimer = true)
    ∧ (c4Tick1.audioElement.map (fun a => a.currentTime) = some 10)
    ∧ (c4Tick2.audioElement.map (fun a => a.currentTime) = some 10)
    ∧ (c4Tick3.audioElement.map (fun a => a.currentTime) = some 30)
    ∧ (c4Tick3.loopCount = 3 ∧ c4Tick3.loopTimer = false ∧ c4Tick3.loopOptions = none) :=
  ⟨rfl, ⟨rfl, rfl⟩, rfl, rfl, rfl, ⟨rfl, rfl, rfl⟩⟩

/-- One mid-loop firing: position past the end, counter still below the
limit — increment and rewind. -/
theorem loopTick_mid (s : PlayerState) (a : AudioState) (p : Nat)
    (ha : s.audioElement = some a) (hlo : s.loopOptions = some ⟨10, 30, some 3⟩)
    (hp : 30 ≤ p) (hc : s.loopCount + 1 < 3) :
    loopTickP (setPosP s p)
      = { s with loopCount := s.loopCount + 1,
                 audioElement := some { a with currentTime := 10 } } := by
  have hneg : ¬ (3 ≤ s.loopCount + 1) := by omega
  simp [setPosP, loopTickP, ha, hlo, hp, hneg]

/-- The final firing: position past the end, counter reaching the limit —
increment, cancel the timer, clear the descriptor, do not rewind. -/
theorem loopTick_last (s : PlayerState) (a : AudioState) (p : Nat)
    (ha : s.audioElement = some a) (hlo : s.loopOptions = some ⟨10, 30, some 3⟩)
    (hp : 30 ≤ p) (hc : s.loopCount = 2) :
    loopTickP (setPosP s p)
      = { s with loopTimer := false, loopOptions := none, loopCount := 3,
                 audioElement := some { a with currentTime := p } } := by
  simp [setPosP, loopTickP, ha, hlo, hp, hc]

/-- C4 (amended): for `loopSection` with start 10, end 30 and
`repetitions: 3`, the first two firings that observe position ≥ 30
increment the counter and rewind to 10 (the timer staying live); the
*third* observing firing increments the counter to the limit, cancels the
timer, clears the descriptor and does not rewind — so position is allowed
to advance past 30 from the third crossing on, not the fourth. -/
theorem claimC4_amended (s : PlayerState) (a : AudioState) (p1 p2 p3 : Nat)
    (ha : s.audioElement = some a) (htimer : s.loopTimer = true)
    (hlo : s.loopOptions = some ⟨10, 30, some 3⟩) (hc : s.loopCount = 0)
    (hp1 : 30 ≤ p1) (hp2 : 30 ≤ p2) (hp3 : 30 ≤ p3) :
    (loopTickP (setPosP s p1)
        = { s with loopCount := 1, audioElement := some { a with currentTime := 10 } })
    ∧ (loopTickP (setPosP (loopTickP (setPosP s p1)) p2)
        = { s with loopCount := 2, audioElement := some { a with currentTime := 10 } })
    ∧ (loopTickP (setPosP (loopTickP (setPosP (loopTickP (setPosP s p1)) p2)) p3)
        = { s with loopTimer := false, loopOptions := none, loopCount := 3,
                   audioElement := some { a with currentTime := p3 } })
    ∧ (loopTickP (setPosP s p1)).loopTimer = true
    ∧ (loopTickP (setPosP (loopTickP (setPosP s p1)) p2)).loopTimer = true := by
  have h1 : loopTickP (setPosP s p1)
      = { s with loopCount := 1, audioElement := some { a with currentTime := 10 } } := by
    have h := loopTick_mid s a p1 ha hlo hp1 (by omega)
    rw [h, hc]
  have h2 : loopTickP (setPosP (loopTickP (setPosP s p1)) p2)
      = { s with loopCount := 2, audioElement := some { a with currentTime := 10 } } := by
    rw [h1]
    exact loopTick_mid
      { s with loopCount := 1, audioElement := some { a with currentTime := 10 } }
      { a with currentTime := 10 } p2 rfl hlo hp2 (by simp)
  have h3 : loopTickP (setPosP (loopTickP (setPosP (loopTickP (setPosP s p1)) p2)) p3)
      = { s with loopTimer := false, loopOptions := none, loopCount := 3,
                 audioElement := some { a with currentTime := p3 } } := by
    rw [h2]
    exact loopTick_last
      { s with loopCount := 2, audioElement := some { a with currentTime := 10 } }
      { a with currentTime := 10 } p3 rfl hlo hp3 rfl
  refine ⟨h1, h2, h3, ?_, ?_⟩
  · rw [h1]; exact htimer
  · rw [h2]; exact htimer

/-- C4, witness: the amended behaviour on the concrete armed player, all
three crossings observed at position 30. -/
theorem claimC4_amended_witness :
    c4Tick1.loopCount = 1 ∧ c4Tick2.loopCount = 2
    ∧ c4Tick3.loopTimer = false ∧ c4Tick3.loopOptions = none := by
  have h := claimC4_amended c4Armed { currentTime := 12 } 30 30 30 rfl rfl rfl rfl
    (by omega) (by omega) (by omega)
  refine ⟨?_, ?_, ?_, ?_⟩
  · rw [show c4Tick1 = loopTickP (setPosP c4Armed 30) from rfl, h.1]
  · rw [show c4Tick2 = loopTickP (setPosP (loopTickP (setPosP c4Armed 30)) 30) from rfl,
      h.2.1]
  · rw [show c4Tick3
        = loopTickP (setPosP (loopTickP (setPosP (loopTickP (setPosP c4Armed 30)) 30)) 30)
      from rfl, h.2.2.1]
  · rw [show c4Tick3
        = loopTickP (setPosP (loopTickP (setPosP (loopTickP (setPosP c4Armed 30)) 30)) 30)
      from rfl, h.2.2.1]

/-! ## Claim C8 — listener registry -/

/-- `loadTrack` reattaches exactly the registered callbacks, in registry
order, to the fresh element, and leaves the registry itself unchanged. -/
theorem loadTrack_effect (s : PlayerState) (i : TrackInput) (o : AudioOptions) :
    (loadTrackP s i o).eventListeners = s.eventListeners
    ∧ (loadTrackP s i o).audioElement.map (fun a => a.attached)
        = some (flattenReg s.eventListeners) := by
  cases hae : s.audioElement with
  | none =>
    constructor <;>
      simp [loadTrackP, stopP, clearLoopTimerP, removeEventListenersP,
        setupEventListenersP, hae]
  | some a =>
    constructor <;>
      simp [loadTrackP, stopP, clearLoopTimerP, removeEventListenersP,
        setupEventListenersP, hae]

/-- C8 (confirmed): every callback registered before any track is loaded
is attached to the handle a subsequent `loadTrack` creates, and attached
again to the new handle after a second `loadTrack`, with no
re-registration; the registry survives both loads unchanged, keeping
callbacks per event in insertion order. -/
theorem claimC8 (regs : List (String × Nat)) (i1 i2 : TrackInput) (o1 o2 : AudioOptions) :
    ((loadTrackP (applyRegs initPlayer regs) i1 o1).eventListeners
        = (applyRegs initPlayer regs).eventListeners)
    ∧ ((loadTrackP (applyRegs initPlayer regs) i1 o1).audioElement.map (fun a => a.attached)
        = some (flattenReg (applyRegs initPlayer regs).eventListeners))
    ∧ ((loadTrackP (loadTrackP (applyRegs initPlayer regs) i1 o1) i2 o2).eventListeners
        = (applyRegs initPlayer regs).eventListeners)
    ∧ ((loadTrackP (loadTrackP (applyRegs initPlayer regs) i1 o1) i2 o2).audioElement.map
          (fun a => a.attached)
        = some (flattenReg (applyRegs initPlayer regs).eventListeners)) := by
  obtain ⟨h1, h2⟩ := loadTrack_effect (applyRegs initPlayer regs) i1 o1
  obtain ⟨h3, h4⟩ := loadTrack_effect (loadTrackP (applyRegs initPlayer regs) i1 o1) i2 o2
  exact ⟨h1, h2, by rw [h3, h1], by rw [h4, h1]⟩

/-! ## Claim C9 — JSONP cleanup -/

/-- C9 (confirmed): for every settled JSONP request — resolved because the
callback fired, or rejected because the script errored — the injected
script tag is gone from the document and the generated global callback
name is gone from the global namespace; the cleanup runs on both paths,
and the request resolves with the data or rejects accordingly. -/
theorem claimC9 (env : JsonpEnv) (now : Nat) (outcome : Option JVal)
    (hs : env.nextScriptId ∉ env.scripts)
    (hg : genCbName now env.callbackCounter ∉ env.globals) :
    ((jsonpSettle (jsonpCreate env now).1 (jsonpCreate env now).2 outcome).1.scripts
        = env.scripts)
    ∧ ((jsonpSettle (jsonpCreate env now).1 (jsonpCreate env now).2 outcome).1.globals
        = env.globals)
    ∧ ((jsonpCreate env now).2.scriptId
        ∉ (jsonpSettle (jsonpCreate env now).1 (jsonpCreate env now).2 outcome).1.scripts)
    ∧ ((jsonpCreate env now).2.cbName
        ∉ (jsonpSettle (jsonpCreate env now).1 (jsonpCreate env now).2 outcome).1.globals)
    ∧ ((jsonpSettle (jsonpCreate env now).1 (jsonpCreate env now).2 outcome).2
        = match outcome with
          | some d => Except.ok d
          | none => Except.error ()) := by
  have hscr : (env.scripts ++ [env.nextScriptId]).erase env.nextScriptId = env.scripts := by
    rw [List.erase_append_right _ hs, List.erase_cons_head, List.append_nil]
  have hglob : (env.globals ++ [genCbName now env.callbackCounter]).erase
      (genCbName now env.callbackCounter) = env.globals := by
    rw [List.erase_append_right _ hg, List.erase_cons_head, List.append_nil]
  cases outcome with
  | some d =>
    refine ⟨?_, ?_, ?_, ?_, rfl⟩ <;>
      simp [jsonpCreate, jsonpSettle, hscr, hglob, hs, hg]
  | none =>
    refine ⟨?_, ?_, ?_, ?_, rfl⟩ <;>
      simp [jsonpCreate, jsonpSettle, hscr, hglob, hs, hg]

/-- C9, witness: a fresh environment, one resolved request. -/
theorem claimC9_witness :
    ((jsonpSettle (jsonpCreate ⟨[], [], 0, 0⟩ 5).1 (jsonpCreate ⟨[], [], 0, 0⟩ 5).2
        (some JVal.null)).1.scripts = [])
    ∧ ((jsonpSettle (jsonpCreate ⟨[], [], 0, 0⟩ 5).1 (jsonpCreate ⟨[], [], 0, 0⟩ 5).2
        (some JVal.null)).1.globals = []) := by
  have h := claimC9 ⟨[], [], 0, 0⟩ 5 (some JVal.null) (by simp) (by simp)
  exact ⟨h.1, h.2.1⟩

/-! ## Claims C7, C1 — the proxy fallback chain -/

/-- C7 (confirmed): with `maxRetries: 1` in proxy mode, a failing first
proxy attempt (the descriptor at index 0, `allorigins`) is retried exactly
once against the next descriptor in list order (`corsproxy.io`); when that
fails too, no further proxy is tried — the one remaining attempt is the
bare direct request with the stripped, credentials-omitted options. -/
theorem claimC7 (env : FetchEnv) (body : String)
    (h0 : env.proxyOut 0 = none) (h1 : env.proxyOut 1 = none) :
    ((fetchWithFallback ⟨"proxy", 1⟩ env (searchFetchOptions body)).attempts
      = [Attempt.proxyA "allorigins", Attempt.proxyA "corsproxy.io",
          Attempt.bare (simplifyOptions (searchFetchOptions body))])
    ∧ ((simplifyOptions (searchFetchOptions body)).credentials = some "omit")
    ∧ ((simplifyOptions (searchFetchOptions body)).headers
        = [("Content-Type", "application/json")]) := by
  refine ⟨?_, rfl, rfl⟩
  cases hb : env.bareOut <;>
    simp [fetchWithFallback, fetchAux, h0, h1, hb, getCurrentProxy, initPM, initProxies,
      getNextProxy, markCurrentAsFailed, markCurrentAsWorking, setStatusAt, dummyProxy,
      searchFetchOptions]

/-- C7, witness: the all-failing oracle. -/
theorem claimC7_witness :
    (fetchWithFallback ⟨"proxy", 1⟩ envAllFail (searchFetchOptions "b")).attempts
      = [Attempt.proxyA "allorigins", Attempt.proxyA "corsproxy.io",
          Attempt.bare (simplifyOptions (searchFetchOptions "b"))] :=
  (claimC7 envAllFail "b" rfl rfl).1

/-- C1, counterexample: for the `POST` search request in proxy mode, the
very first attempt selects the descriptor at the rotation index —
`allorigins`, whose declared methods are `['GET']` — so a descriptor that
does not support the requested method *is* selected. -/
theorem claimC1_counterexample :
    ((fetchWithFallback ⟨"proxy", 4⟩ envAllFail (searchFetchOptions "x")).attempts.head?
        = some (Attempt.proxyA "allorigins"))
    ∧ ((searchFetchOptions "x").method = some "POST")
    ∧ ((getCurrentProxy initPM).name = "allorigins")
    ∧ ((getCurrentProxy initPM).methods = ["GET"])
    ∧ ("POST" ∉ (getCurrentProxy initPM).methods) :=
  ⟨rfl, rfl, rfl, rfl, by decide⟩

/-- C1 (amended): descriptor selection never consults supported methods,
status, or the recorded failure timestamps: the attempt at depth `k`
simply uses the descriptor at rotation index `k mod 4`.  With the default
`maxRetries: 4` and an all-failing network, a `POST` request attempts
`allorigins`, `corsproxy.io`, `thingproxy`, `jsonp` (GET-only descriptors
included) and then `allorigins` *again* — immediately after its failure
was recorded, with its cooldown timestamp on file but never read — before
the final bare request. -/
theorem claimC1_amended (env : FetchEnv) (body : String)
    (hf : ∀ k, env.proxyOut k = none) :
    ((fetchWithFallback ⟨"proxy", 4⟩ env (searchFetchOptions body)).attempts
      = [Attempt.proxyA "allorigins", Attempt.proxyA "corsproxy.io",
          Attempt.proxyA "thingproxy", Attempt.proxyA "jsonp", Attempt.proxyA "allorigins",
          Attempt.bare (simplifyOptions (searchFetchOptions body))])
    ∧ ((fetchWithFallback ⟨"proxy", 4⟩ env (searchFetchOptions body)).pm.lastTestedTime
      = [(0, env.now 4), (3, env.now 3), (2, env.now 2), (1, env.now 1), (0, env.now 0)]) := by
  cases hb : env.bareOut <;>
    constructor <;>
      simp [fetchWithFallback, fetchAux, hf, hb, getCurrentProxy, initPM, initProxies,
        getNextProxy, markCurrentAsFailed, markCurrentAsWorking, setStatusAt, dummyProxy,
        searchFetchOptions]

/-- C1, witness: the amended rotation on the all-failing oracle. -/
theorem claimC1_amended_witness :
    ((fetchWithFallback ⟨"proxy", 4⟩ envAllFail (searchFetchOptions "x")).attempts
      = [Attempt.proxyA "allorigins", Attempt.proxyA "corsproxy.io",
          Attempt.proxyA "thingproxy", Attempt.proxyA "jsonp", Attempt.proxyA "allorigins",
          Attempt.bare (simplifyOptions (searchFetchOptions "x"))])
    ∧ ((fetchWithFallback ⟨"proxy", 4⟩ envAllFail (searchFetchOptions "x")).pm.lastTestedTime
      = [(0, 0), (3, 0), (2, 0), (1, 0), (0, 0)]) :=
  claimC1_amended envAllFail "x" (fun _ => rfl)
